import Mathlib

/-!
Verification of `compare_models.py` against its specification.

The Python source is shallowly embedded here: strings are handled as
`List Char` where convenient, Python `dict`s of extracted statistics as
insertion-ordered association lists, Python numbers as `Int`/`Rat`
(float parsing is modelled on exact decimals; the exponent, `inf`/`nan`
and underscore-separator forms of Python's `float`/`int` grammar, and
the shortest-round-trip rendering of `str(float)`, are not modelled —
no property below depends on them), and fallible operations as
`Option`/`Except` values.
-/

namespace CompareModels

/-- One whitespace-stripped pass from the left. -/
def dropWsp (cs : List Char) : List Char := cs.dropWhile Char.isWhitespace

/-- Model of Python `str.strip()`: whitespace removed from both ends. -/
def pyStripL (cs : List Char) : List Char :=
  ((dropWsp cs).reverse.dropWhile Char.isWhitespace).reverse

/-- Model of Python `s.split(sep)` for a one-character separator `c`. -/
def splitOnChar (c : Char) : List Char → List (List Char)
  | [] => [[]]
  | a :: as =>
    let r := splitOnChar c as
    if a = c then [] :: r
    else
      match r with
      | [] => [[a]]
      | h :: t => (a :: h) :: t

/-- Join pieces back with the separator character: inverse of `splitOnChar`. -/
def joinC (c : Char) : List (List Char) → List Char
  | [] => []
  | [a] => a
  | a :: rest => a ++ c :: joinC c rest

/-- Everything after the first occurrence of `':'`, if any. -/
def afterFirstColon : List Char → Option (List Char)
  | [] => none
  | a :: as => if a = ':' then some as else afterFirstColon as

/-- Everything after the last occurrence of the two-character pattern
`": "`, if any: the model of `line.rfind(': ')` followed by slicing. -/
def afterLastColonSpace : List Char → Option (List Char)
  | [] => none
  | [_] => none
  | a :: b :: rest =>
    match afterLastColonSpace (b :: rest) with
    | some r => some r
    | none => if a = ':' ∧ b = ' ' then some rest else none

/-- Strip one optional leading sign; returns (isNegative, rest). -/
def stripSign : List Char → Bool × List Char
  | '+' :: r => (false, r)
  | '-' :: r => (true, r)
  | r => (false, r)

/-- Decimal value of a digit list (most significant first). -/
def digitsToNat (cs : List Char) : ℕ :=
  cs.foldl (fun a c => 10 * a + (c.toNat - 48)) 0

/-- A nonempty all-digit list parses; anything else fails. -/
def parseDigits (cs : List Char) : Option ℕ :=
  if cs ≠ [] ∧ cs.all Char.isDigit then some (digitsToNat cs) else none

/-- Model of Python `int(s)`: strip whitespace, optional sign, digits. -/
def pyIntL (cs : List Char) : Option ℤ :=
  let p := stripSign (pyStripL cs)
  (parseDigits p.2).map (fun n => if p.1 then -(n : ℤ) else (n : ℤ))

/-- Unsigned decimal part of Python `float(s)`: `digits`, `digits.digits`,
`.digits` or `digits.` (at least one digit overall). -/
def pyFloatCore (cs : List Char) : Option ℚ :=
  match splitOnChar '.' cs with
  | [a] => (parseDigits a).map (fun n => mkRat n 1)
  | [a, b] =>
    if ¬(a = [] ∧ b = []) ∧ a.all Char.isDigit ∧ b.all Char.isDigit then
      some (mkRat (digitsToNat a * 10 ^ b.length + digitsToNat b) (10 ^ b.length))
    else none
  | _ => none

/-- Model of Python `float(s)` on plain decimal notation. -/
def pyFloatL (cs : List Char) : Option ℚ :=
  let p := stripSign (pyStripL cs)
  (pyFloatCore p.2).map (fun q => if p.1 then -q else q)

/-- Does `pat` occur at the very start of `line`? -/
def startsWith : List Char → List Char → Bool
  | [], _ => true
  | _ :: _, [] => false
  | a :: ps, b :: ls => a = b && startsWith ps ls

/-- Model of Python substring membership `pat in line`. -/
def pyInS (pat line : List Char) : Bool :=
  match line with
  | [] => startsWith pat []
  | _ :: rest => startsWith pat line || pyInS pat rest

/-- Model of Python `":" in line`. -/
def hasColon (line : List Char) : Bool := decide (':' ∈ line)

/-- Model of Python `"%" in line`. -/
def hasPct (line : List Char) : Bool := decide ('%' ∈ line)

/-- Model of `str.lower()` (ASCII as used here). -/
def pyLowerL (cs : List Char) : List Char := cs.map Char.toLower

/-- Model of `str.replace(" ", "_")`. -/
def replaceSpaceL (cs : List Char) : List Char :=
  cs.map (fun c => if c = ' ' then '_' else c)

/-- Model of `str.replace("%", "")`. -/
def removePct (cs : List Char) : List Char := cs.filter (fun c => c != '%')

/-- A value stored in the statistics mapping: Python int, float or str. -/
inductive Value where
  | vint (n : ℤ)
  | vfloat (q : ℚ)
  | vstr (s : String)
  deriving DecidableEq

/-- The statistics mapping: a Python dict as an insertion-ordered
association list. -/
abbrev Stats := List (String × Value)

/-- Python `d[k] = v`: update in place if the key exists, else append. -/
def dictInsert (s : Stats) (k : String) (v : Value) : Stats :=
  if s.any (fun p => p.1 = k) then
    s.map (fun p => if p.1 = k then (k, v) else p)
  else s ++ [(k, v)]

/-- Python `d.get(k)` as an `Option`. -/
def dictGet? (s : Stats) (k : String) : Option Value :=
  (s.find? (fun p => p.1 = k)).map (·.2)

/-- The section-header phrase gating count/percentage extraction. -/
def resultsMarker : List Char := "Results Summary for CNN Model Architecture".data

/-- Label substring for the total image count. -/
def imgLabel : List Char := "N Images".data

/-- Label substring for the dog image count. -/
def dogLabel : List Char := "N Dog Images".data

/-- Label substring for the not-a-dog image count. -/
def notdogLabel : List Char := "N Not-Dog Images".data

/-- The runtime marker phrase. -/
def runtimeLabel : List Char := "Total Elapsed Runtime".data

/-- One count branch of the loop body: `parts = line.split(":")`, and when
there are exactly two parts, `int(parts[1].strip())` stored under `key`
(conversion failure ignored). -/
def countUpdate (stats : Stats) (key : String) (line : List Char) : Stats :=
  match splitOnChar ':' line with
  | [_, p1] =>
    match pyIntL (pyStripL p1) with
    | some n => dictInsert stats key (.vint n)
    | none => stats
  | _ => stats

/-- Normalised key of a generic percentage line:
`parts[0].strip().replace(" ", "_").lower()`. -/
def normKeyS (p0 : List Char) : String :=
  String.mk (pyLowerL (replaceSpaceL (pyStripL p0)))

/-- The generic percentage branch: with exactly two colon-split parts, the
normalised label keys either the parsed float or, on failure, the raw
percent-stripped text. -/
def pctUpdate (stats : Stats) (line : List Char) : Stats :=
  match splitOnChar ':' line with
  | [p0, p1] =>
    let v := removePct (pyStripL p1)
    match pyFloatL v with
    | some q => dictInsert stats (normKeyS p0) (.vfloat q)
    | none => dictInsert stats (normKeyS p0) (.vstr (String.mk v))
  | _ => stats

/-- The runtime branch: if `': '` occurs, the text after its last
occurrence, stripped, is stored under `"runtime"`. -/
def runtimeUpdate (stats : Stats) (line : List Char) : Stats :=
  match afterLastColonSpace line with
  | some r => dictInsert stats "runtime" (.vstr (String.mk (pyStripL r)))
  | none => stats

/-- The line loop of `extract_statistics`: the `elif` chain over each line,
with the results-section flag threaded through and the runtime branch
terminating the loop (`break`). -/
def extractLoop : List (List Char) → Bool → Stats → Stats
  | [], _, stats => stats
  | line :: rest, irs, stats =>
    if pyInS resultsMarker line then extractLoop rest true stats
    else if irs && pyInS imgLabel line && hasColon line then
      extractLoop rest irs (countUpdate stats "n_images" line)
    else if irs && pyInS dogLabel line && hasColon line then
      extractLoop rest irs (countUpdate stats "n_dogs" line)
    else if irs && pyInS notdogLabel line && hasColon line then
      extractLoop rest irs (countUpdate stats "n_notdogs" line)
    else if irs && hasColon line && hasPct line then
      extractLoop rest irs (pctUpdate stats line)
    else if pyInS runtimeLabel line then
      runtimeUpdate stats line
    else extractLoop rest irs stats

/-- `extract_statistics(output_text)`: split on newlines and run the loop
starting outside the results section with an empty mapping. -/
def extract_statistics (text : String) : Stats :=
  extractLoop (splitOnChar '\n' text.data) false []

/-- Count-line update as the specification words it: split the line at the
first colon, trim the trailing part, parse it as an integer under `key`,
and leave the field absent if conversion fails. -/
def claimCountUpdate (stats : Stats) (key : String) (line : List Char) : Stats :=
  match afterFirstColon line with
  | some t =>
    match pyIntL (pyStripL t) with
    | some n => dictInsert stats key (.vint n)
    | none => stats
  | none => stats

/-- Decimal digit characters of `n`, most significant first; the fuel
argument (`n + 1` at top level) only drives structural recursion. -/
def natCharsAux : ℕ → ℕ → List Char
  | 0, _ => []
  | fuel + 1, n =>
    if n < 10 then [Nat.digitChar n]
    else natCharsAux fuel (n / 10) ++ [Nat.digitChar (n % 10)]

/-- Decimal rendering of a natural number. -/
def myNatStr (n : ℕ) : String := String.mk (natCharsAux (n + 1) n)

/-- Decimal rendering of an integer, the model of Python `str(int)`. -/
def myIntStr (i : ℤ) : String :=
  (if i < 0 then "-" else "") ++ myNatStr i.natAbs

/-- `⌊10q + 1/2⌋` computed on numerator and denominator: the rounding
step behind the `:.1f` format model. -/
def round10 (q : ℚ) : ℤ := Int.fdiv (20 * q.num + (q.den : ℤ)) (2 * (q.den : ℤ))

/-- Model of Python's `f"{x:.1f}"`: the value rounded to one fractional
digit and rendered with exactly one digit after the decimal point. -/
def pyFormatF1 (q : ℚ) : String :=
  (if round10 q < 0 then "-" else "") ++ myNatStr ((round10 q).natAbs / 10)
    ++ "." ++ String.mk [Nat.digitChar ((round10 q).natAbs % 10)]

/-- Model of `str.upper()` (ASCII as used here). -/
def pyUpperS (s : String) : String := String.mk (s.data.map Char.toUpper)

/-- Model of `str.lower()` on a `String`. -/
def pyLowerS (s : String) : String := String.mk (pyLowerL s.data)

/-- Model of Python `str(value)`.  `str` of a float is abbreviated to its
one-decimal rendering; no claim below depends on that rendering. -/
def pyStrV : Value → String
  | .vint n => myIntStr n
  | .vfloat q => pyFormatF1 q
  | .vstr s => s

/-- Lexicographic comparison of character lists by code point: the model
of Python string `<`. -/
def charListLt : List Char → List Char → Bool
  | [], [] => false
  | [], _ :: _ => true
  | _ :: _, [] => false
  | a :: s, b :: t =>
    if a.toNat < b.toNat then true
    else if b.toNat < a.toNat then false
    else charListLt s t

/-- Model of Python string comparison `s < t`. -/
def strLtB (s t : String) : Bool := charListLt s.data t.data

/-- The numeric content of a value, when it has one. -/
def toRat? : Value → Option ℚ
  | .vint n => some (mkRat n 1)
  | .vfloat q => some q
  | .vstr _ => none

/-- Numeric content with strings collapsed to `0` (used only where the
numeric hypothesis makes the string case impossible). -/
def ratOf (v : Value) : ℚ := (toRat? v).getD 0

/-- Model of Python `a > b` on statistic values: `none` is the
`TypeError` raised on a string/number comparison. -/
def pyGT (a b : Value) : Option Bool :=
  match a, b with
  | .vstr s, .vstr t => some (strLtB t s)
  | a, b =>
    match toRat? a, toRat? b with
    | some x, some y => some (decide (y < x))
    | _, _ => none

/-- The results collection built by `main`: one run result per model, in
insertion order vgg, alexnet, resnet. -/
structure AllResults where
  vgg : Option Stats
  alexnet : Option Stats
  resnet : Option Stats
  deriving DecidableEq

/-- `all_results.items()`: iteration follows insertion order. -/
def items (r : AllResults) : List (String × Option Stats) :=
  [("vgg", r.vgg), ("alexnet", r.alexnet), ("resnet", r.resnet)]

/-- `safe_get` from `analyze_results`: `stats.get(key, 0) if stats else 0`
(a `None` or empty mapping yields the integer `0`). -/
def safe_get (stats : Option Stats) (key : String) : Value :=
  match stats with
  | none => .vint 0
  | some s => if s = [] then .vint 0 else (dictGet? s key).getD (.vint 0)

/-- The scan of Python `max(items, key=f)`: the current best is replaced
only on a strictly greater key, so the first maximum is kept; a failed
comparison aborts the whole call. -/
def pyMaxGo {α : Type} (f : α → Value) : α → List α → Option α
  | best, [] => some best
  | best, y :: ys =>
    match pyGT (f y) (f best) with
    | none => none
    | some true => pyMaxGo f y ys
    | some false => pyMaxGo f best ys

/-- Python `max(iterable, key=f)`; `none` models the exceptions (empty
iterable, or unorderable key values). -/
def pyMax {α : Type} (f : α → Value) : List α → Option α
  | [] => none
  | x :: xs => pyMaxGo f x xs

/-- `max(all_results.items(), key=lambda x: safe_get(x[1], key))`. -/
def best_for (r : AllResults) (key : String) : Option (String × Option Stats) :=
  pyMax (fun x => safe_get x.2 key) (items r)

/-- The printed recommendation: the upper-cased name of the
`pct_match` winner. -/
def recommended_model (r : AllResults) : Option String :=
  (best_for r "pct_match").map (fun w => pyUpperS w.1)

/-- The four metric keys ranked by `analyze_results`. -/
def metricKeys : List String := ["pct_correct_dogs", "pct_correct_breed",
  "pct_correct_notdogs", "pct_match"]

/-- The numeric key value of one results item for a metric. -/
def itemVal (key : String) (x : String × Option Stats) : ℚ :=
  ratOf (safe_get x.2 key)

/-- First element attaining the maximum of `g`: the specification's
"maximum value, ties broken by first encounter". -/
def firstMaxQ {α : Type} (g : α → ℚ) : List α → Option α
  | [] => none
  | x :: xs =>
    match firstMaxQ g xs with
    | none => some x
    | some m => if g x < g m then some m else some x

/-- Metric value of a run result as the specification words it: absent
result or missing key count as zero. -/
def specMetricValue (stats : Option Stats) (key : String) : ℚ :=
  match stats with
  | none => 0
  | some s =>
    match dictGet? s key with
    | some v => ratOf v
    | none => 0

/-- `stats.get(key, 'N/A')` from the console reporter. -/
def dGetNA (s : Stats) (k : String) : Value :=
  (dictGet? s k).getD (.vstr "N/A")

/-- One console cell: one-decimal percent for floats, `str(value)`
otherwise (`f"{v:.1f}%" if isinstance(v, float) else str(v)`). -/
def cellOf : Value → String
  | .vfloat q => pyFormatF1 q ++ "%"
  | v => pyStrV v

/-- One row of the console table: the four metric cells, or `ERROR`
cells when the run result is `None` (or empty, hence falsy). -/
def consoleRow : String → Option Stats → List String
  | model, some s =>
    if s = [] then [pyUpperS model, "ERROR", "ERROR", "ERROR", "ERROR"]
    else [pyUpperS model, cellOf (dGetNA s "pct_correct_dogs"),
      cellOf (dGetNA s "pct_correct_breed"),
      cellOf (dGetNA s "pct_correct_notdogs"), cellOf (dGetNA s "pct_match")]
  | model, none => [pyUpperS model, "ERROR", "ERROR", "ERROR", "ERROR"]

/-- `create_console_results_table`: one row per model in iteration
order. -/
def create_console_results_table (r : AllResults) : List (List String) :=
  (items r).map (fun x => consoleRow x.1 x.2)

/-- `model_key in all_results` plus the lookup itself. -/
def lookupR (r : AllResults) (k : String) : Option (Option Stats) :=
  ((items r).find? (fun x => x.1 == k)).map (·.2)

/-- `stats.get(k, 0)` from the visual reporter. -/
def dGet0 (s : Stats) (k : String) : Value := (dictGet? s k).getD (.vint 0)

/-- `f"{v:.1f}"` on a stored value; `none` models the `ValueError`
raised when the value is a string. -/
def fmt1V : Value → Option String
  | .vint n => some (pyFormatF1 (mkRat n 1))
  | .vfloat q => some (pyFormatF1 q)
  | .vstr _ => none

/-- One row of the visual detailed table, keyed by the lower-cased
display name; a missing or falsy result gives the all-`ERROR` row. -/
def rowFor (r : AllResults) (model : String) : Option (List String) :=
  match lookupR r (pyLowerS model) with
  | some (some s) =>
    if s = [] then some [model, "ERROR", "ERROR", "ERROR", "ERROR", "ERROR"]
    else
      match fmt1V (dGet0 s "pct_correct_notdogs"), fmt1V (dGet0 s "pct_correct_dogs"),
          fmt1V (dGet0 s "pct_correct_breed"), fmt1V (dGet0 s "pct_match") with
      | some nd, some d, some b, some m =>
        some [model, nd ++ "%", d ++ "%", b ++ "%", m ++ "%",
          pyStrV ((dictGet? s "runtime").getD (.vstr "0:0:0"))]
      | _, _, _, _ => none
  | _ => some [model, "ERROR", "ERROR", "ERROR", "ERROR", "ERROR"]

/-- The detailed table in the fixed display order ResNet, AlexNet, VGG. -/
def table_data (r : AllResults) : Option (List (List String)) :=
  match rowFor r "ResNet", rowFor r "AlexNet", rowFor r "VGG" with
  | some a, some b, some c => some [a, b, c]
  | _, _, _ => none

/-- The summary table rows, sourced from one run result. -/
def summaryOf (s : Stats) : List (String × Value) :=
  [("# Total Images", dGet0 s "n_images"), ("# Dog Images", dGet0 s "n_dogs"),
    ("# Not-a-Dog Images", dGet0 s "n_notdogs")]

/-- The tail of a colon split, rejoined: `none` when there was no colon. -/
def splitTailJoin : List (List Char) → Option (List Char)
  | [] => none
  | [_] => none
  | _ :: xs => some (joinC ':' xs)

instance {ε α : Type} [DecidableEq ε] [DecidableEq α] : DecidableEq (Except ε α) :=
  fun a b =>
    match a, b with
    | .error e₁, .error e₂ => decidable_of_iff (e₁ = e₂) (by simp)
    | .ok x, .ok y => decidable_of_iff (x = y) (by simp)
    | .error _, .ok _ => isFalse (by simp)
    | .ok _, .error _ => isFalse (by simp)

/-- `create_visual_results_table`, matplotlib assumed importable: the
sample statistics are `next(iter(all_results.values()))`, i.e. the
first-inserted (vgg) result; a falsy sample aborts with the
"No valid results to display" diagnostic, and a string formatted with
`:.1f` aborts with the `ValueError` it raises in Python.  On success the
summary rows and the detailed table stand in for the rendered image. -/
def create_visual_results_table (r : AllResults) :
    Except String (List (String × Value) × List (List String)) :=
  match r.vgg with
  | none => .error "No valid results to display"
  | some s =>
    if s = [] then .error "No valid results to display"
    else
      match table_data r with
      | some td => .ok (summaryOf s, td)
      | none => .error "ValueError: unsupported format string passed to str"

/-- A percent cell rendered with exactly one fractional digit: an
optional sign and digits, one dot, exactly one digit, then the percent
sign. -/
def oneFracPctCell (s : String) : Prop :=
  ∃ pre d, d < 10 ∧ s = pre ++ "." ++ String.mk [Nat.digitChar d] ++ "%"
    ∧ ∀ c ∈ pre.data, c.isDigit = true ∨ c = '-'

theorem mem_dropWhile_of_mem {p : Char → Bool} {c : Char} (hp : p c = false) :
    ∀ {l : List Char}, c ∈ l → c ∈ l.dropWhile p := by
  intro l hm
  induction l with
  | nil => simp at hm
  | cons a as ih =>
    by_cases ha : p a = true
    · rw [List.dropWhile_cons_of_pos ha]
      rcases List.mem_cons.mp hm with h | h
      · subst h; rw [hp] at ha; simp at ha
      · exact ih h
    · rw [List.dropWhile_cons_of_neg ha]
      exact hm

theorem mem_pyStripL {c : Char} {cs : List Char} (hm : c ∈ cs)
    (hw : c.isWhitespace = false) : c ∈ pyStripL cs := by
  unfold pyStripL dropWsp
  rw [List.mem_reverse]
  apply mem_dropWhile_of_mem hw
  rw [List.mem_reverse]
  exact mem_dropWhile_of_mem hw hm

theorem mem_stripSign_snd {c : Char} {cs : List Char} (hm : c ∈ cs)
    (h1 : c ≠ '+') (h2 : c ≠ '-') : c ∈ (stripSign cs).2 := by
  unfold stripSign
  split
  · rcases List.mem_cons.mp hm with h | h
    · exact absurd h h1
    · exact h
  · rcases List.mem_cons.mp hm with h | h
    · exact absurd h h2
    · exact h
  · exact hm

theorem parseDigits_eq_none {c : Char} {cs : List Char} (hm : c ∈ cs)
    (hd : c.isDigit = false) : parseDigits cs = none := by
  unfold parseDigits
  rw [if_neg]
  rintro ⟨-, hall⟩
  have := List.all_eq_true.mp hall c hm
  rw [hd] at this
  simp at this

theorem pyIntL_eq_none_of_colon {cs : List Char} (h : ':' ∈ cs) :
    pyIntL cs = none := by
  have h1 : ':' ∈ pyStripL cs := mem_pyStripL h (by decide)
  have h2 : ':' ∈ (stripSign (pyStripL cs)).2 :=
    mem_stripSign_snd h1 (by decide) (by decide)
  have h3 := parseDigits_eq_none h2 (by decide)
  simp [pyIntL, h3]

theorem splitOnChar_ne_nil (c : Char) : ∀ cs, splitOnChar c cs ≠ [] := by
  intro cs
  induction cs with
  | nil => simp [splitOnChar]
  | cons a as ih =>
    simp only [splitOnChar]
    split
    · simp
    · split <;> simp

theorem joinC_splitOnChar (c : Char) : ∀ cs, joinC c (splitOnChar c cs) = cs := by
  intro cs
  induction cs with
  | nil => rfl
  | cons a as ih =>
    simp only [splitOnChar]
    by_cases hac : a = c
    · simp only [if_pos hac]
      cases hsp : splitOnChar c as with
      | nil => exact absurd hsp (splitOnChar_ne_nil c as)
      | cons h t =>
        have : joinC c ([] :: h :: t) = c :: joinC c (h :: t) := rfl
        rw [this, ← hsp, ih, hac]
    · simp only [if_neg hac]
      cases hsp : splitOnChar c as with
      | nil => exact absurd hsp (splitOnChar_ne_nil c as)
      | cons h t =>
        rw [hsp] at ih
        cases t with
        | nil =>
          have hj : joinC c [h] = h := rfl
          rw [hj] at ih
          show a :: h = a :: as
          rw [ih]
        | cons t1 ts =>
          have hj : joinC c (h :: t1 :: ts) = h ++ c :: joinC c (t1 :: ts) := rfl
          rw [hj] at ih
          show a :: h ++ c :: joinC c (t1 :: ts) = a :: as
          rw [List.cons_append, ih]

theorem afterFirstColon_eq (cs : List Char) :
    afterFirstColon cs = splitTailJoin (splitOnChar ':' cs) := by
  induction cs with
  | nil => rfl
  | cons a as ih =>
    simp only [afterFirstColon, splitOnChar]
    by_cases hac : a = ':'
    · simp only [if_pos hac]
      cases hsp : splitOnChar ':' as with
      | nil => exact absurd hsp (splitOnChar_ne_nil ':' as)
      | cons h t =>
        have : splitTailJoin ([] :: h :: t) = some (joinC ':' (h :: t)) := rfl
        rw [this, ← hsp, joinC_splitOnChar]
    · simp only [if_neg hac]
      cases hsp : splitOnChar ':' as with
      | nil => exact absurd hsp (splitOnChar_ne_nil ':' as)
      | cons h t =>
        rw [hsp] at ih
        cases t with
        | nil => exact ih
        | cons t1 ts => exact ih

theorem countUpdate_eq_claim (stats : Stats) (key : String) (line : List Char) :
    countUpdate stats key line = claimCountUpdate stats key line := by
  unfold countUpdate claimCountUpdate
  rw [afterFirstColon_eq]
  cases hsp : splitOnChar ':' line with
  | nil => exact absurd hsp (splitOnChar_ne_nil ':' line)
  | cons p0 t =>
    cases t with
    | nil => rfl
    | cons p1 t2 =>
      cases t2 with
      | nil =>
        have : splitTailJoin [p0, p1] = some p1 := rfl
        rw [this]
      | cons p2 t3 =>
        have h1 : splitTailJoin (p0 :: p1 :: p2 :: t3)
            = some (p1 ++ ':' :: joinC ':' (p2 :: t3)) := rfl
        rw [h1]
        have h2 : ':' ∈ p1 ++ ':' :: joinC ':' (p2 :: t3) :=
          List.mem_append_right _ (List.mem_cons_self _ _)
        have h3 : pyIntL (pyStripL (p1 ++ ':' :: joinC ':' (p2 :: t3))) = none :=
          pyIntL_eq_none_of_colon (mem_pyStripL h2 (by decide))
        simp [h3]

/-- C1: in the results section, a line containing one of the labeled
substrings `N Images`, `N Dog Images` or `N Not-Dog Images` together with
a colon (and not an earlier branch's pattern) updates the corresponding
key (`n_images`, `n_dogs`, `n_notdogs`) exactly as the claim words it:
the line is split at its first colon, the trailing part trimmed and
parsed as an integer, and a failed conversion leaves the field absent
with no error; scanning then continues with the following lines. -/
theorem extract_statistics_count_lines (line : List Char) (rest : List (List Char))
    (stats : Stats) (hm : pyInS resultsMarker line = false)
    (hc : hasColon line = true) :
    (pyInS imgLabel line = true →
      extractLoop (line :: rest) true stats
        = extractLoop rest true (claimCountUpdate stats "n_images" line))
    ∧ (pyInS imgLabel line = false → pyInS dogLabel line = true →
      extractLoop (line :: rest) true stats
        = extractLoop rest true (claimCountUpdate stats "n_dogs" line))
    ∧ (pyInS imgLabel line = false → pyInS dogLabel line = false →
      pyInS notdogLabel line = true →
      extractLoop (line :: rest) true stats
        = extractLoop rest true (claimCountUpdate stats "n_notdogs" line)) := by
  refine ⟨fun h1 => ?_, fun h1 h2 => ?_, fun h1 h2 h3 => ?_⟩ <;>
    simp_all [extractLoop, countUpdate_eq_claim]

/-- Witness for C1 at the line `"N Images: 40"`. -/
theorem extract_statistics_count_lines_witness :
    extractLoop ["N Images: 40".data] true []
      = extractLoop [] true (claimCountUpdate [] "n_images" "N Images: 40".data)
    ∧ claimCountUpdate ([] : Stats) "n_images" "N Images: 40".data
      = [("n_images", Value.vint 40)] :=
  ⟨(extract_statistics_count_lines "N Images: 40".data [] []
      (by decide) (by decide)).1 (by decide), by decide⟩

/-- C2 counterexample: in this text the first line containing
`Total Elapsed Runtime` sits inside the results section and contains both
a colon and a percent sign, so the generic percentage branch consumes it
first: contrary to the claim, that line does not set `runtime` (which the
claim would make `"5%"`) and scanning does not stop there — the later
runtime line sets `runtime` to `"0:3:15"`. -/
theorem runtime_first_line_refuted :
    extract_statistics ("Results Summary for CNN Model Architecture\n"
        ++ "Total Elapsed Runtime: 5%\n** Total Elapsed Runtime: 0:3:15")
      = [("total_elapsed_runtime", Value.vfloat (mkRat 5 1)),
         ("runtime", Value.vstr "0:3:15")]
    ∧ dictGet? (extract_statistics ("Results Summary for CNN Model Architecture\n"
        ++ "Total Elapsed Runtime: 5%\n** Total Elapsed Runtime: 0:3:15")) "runtime"
      ≠ some (Value.vstr "5%") :=
  ⟨by decide, by decide⟩

/-- C2 amended: the first line containing `Total Elapsed Runtime` that is
not consumed by an earlier branch (not a marker line, and — when inside
the results section — not a count line nor a line with both a colon and a
percent sign) terminates scanning immediately, so no later line
contributes; if `': '` occurs in it, everything after its last occurrence,
trimmed, is stored under `runtime` (otherwise no `runtime` is stored). -/
theorem runtime_line_terminates (line : List Char) (rest : List (List Char))
    (irs : Bool) (stats : Stats)
    (hrt : pyInS runtimeLabel line = true)
    (hm : pyInS resultsMarker line = false)
    (h1 : irs = true → (pyInS imgLabel line && hasColon line) = false)
    (h2 : irs = true → (pyInS dogLabel line && hasColon line) = false)
    (h3 : irs = true → (pyInS notdogLabel line && hasColon line) = false)
    (h4 : irs = true → (hasColon line && hasPct line) = false) :
    extractLoop (line :: rest) irs stats = runtimeUpdate stats line := by
  cases irs with
  | false => simp [extractLoop, hm, hrt]
  | true => simp [extractLoop, hm, hrt, h1 rfl, h2 rfl, h3 rfl, h4 rfl]

/-- Witness for the amended C2 at `"** Total Elapsed Runtime: 0:3:15"`:
the loop stops there even with more lines pending, and the stored
runtime is `"0:3:15"`. -/
theorem runtime_line_terminates_witness :
    extractLoop ["** Total Elapsed Runtime: 0:3:15".data, "N Images: 40".data] false []
      = runtimeUpdate [] "** Total Elapsed Runtime: 0:3:15".data
    ∧ runtimeUpdate ([] : Stats) "** Total Elapsed Runtime: 0:3:15".data
      = [("runtime", Value.vstr "0:3:15")] :=
  ⟨runtime_line_terminates "** Total Elapsed Runtime: 0:3:15".data
      ["N Images: 40".data] false [] (by decide) (by decide) (by decide)
      (by decide) (by decide) (by decide),
   by decide⟩

/-- C6 counterexample: a results-section line with a percent sign but two
colons is skipped entirely by the code (the split yields three parts),
while the claim asserts a field is stored for every results-section line
containing a colon and a percent sign. -/
theorem pct_line_two_colons_refuted :
    extract_statistics "Results Summary for CNN Model Architecture\nA B: C: 1%" = [] := by
  decide

/-- C6 amended: a results-section line that contains a percent sign, is
not a marker or count line, and contains exactly one colon (the split
yields exactly two parts) stores, under the key formed by trimming the
label, replacing spaces with underscores and lowercasing, the float parse
of the trimmed percent-stripped value — or that raw string when the
float parse fails; scanning then continues. -/
theorem pct_line_single_colon (line : List Char) (rest : List (List Char))
    (stats : Stats) (p0 p1 : List Char)
    (hm : pyInS resultsMarker line = false)
    (h1 : pyInS imgLabel line = false)
    (h2 : pyInS dogLabel line = false)
    (h3 : pyInS notdogLabel line = false)
    (hc : hasColon line = true) (hp : hasPct line = true)
    (hsplit : splitOnChar ':' line = [p0, p1]) :
    extractLoop (line :: rest) true stats
      = extractLoop rest true
          (match pyFloatL (removePct (pyStripL p1)) with
           | some q => dictInsert stats (normKeyS p0) (.vfloat q)
           | none => dictInsert stats (normKeyS p0)
               (.vstr (String.mk (removePct (pyStripL p1))))) := by
  simp [extractLoop, hm, h1, h2, h3, hc, hp, pctUpdate, hsplit]

/-- Witness for the amended C6 at `"pct Correct Dogs: 93.3%"`: the key is
`pct_correct_dogs` and the value the float `93.3`. -/
theorem pct_line_single_colon_witness :
    extractLoop ["pct Correct Dogs: 93.3%".data] true []
      = extractLoop [] true
          (match pyFloatL (removePct (pyStripL " 93.3%".data)) with
           | some q => dictInsert [] (normKeyS "pct Correct Dogs".data) (.vfloat q)
           | none => dictInsert [] (normKeyS "pct Correct Dogs".data)
               (.vstr (String.mk (removePct (pyStripL " 93.3%".data)))))
    ∧ extract_statistics "Results Summary for CNN Model Architecture\npct Correct Dogs: 93.3%"
      = [("pct_correct_dogs", Value.vfloat (mkRat 933 10))] :=
  ⟨pct_line_single_colon "pct Correct Dogs: 93.3%".data [] []
      "pct Correct Dogs".data " 93.3%".data (by decide) (by decide) (by decide)
      (by decide) (by decide) (by decide) (by decide),
   by decide⟩

theorem extractLoop_no_marker (lines : List (List Char))
    (h : ∀ line ∈ lines, pyInS resultsMarker line = false) :
    extractLoop lines false [] = []
      ∨ ∃ s, extractLoop lines false [] = [("runtime", Value.vstr s)] := by
  induction lines with
  | nil => left; rfl
  | cons line rest ih =>
    have hm : pyInS resultsMarker line = false := h line (List.mem_cons_self _ _)
    have hrest : ∀ l ∈ rest, pyInS resultsMarker l = false :=
      fun l hl => h l (List.mem_cons_of_mem _ hl)
    by_cases hr : pyInS runtimeLabel line = true
    · have hstep : extractLoop (line :: rest) false [] = runtimeUpdate [] line := by
        simp [extractLoop, hm, hr]
      rw [hstep]
      unfold runtimeUpdate
      cases har : afterLastColonSpace line with
      | none => left; rfl
      | some r => right; exact ⟨String.mk (pyStripL r), by simp [dictInsert]⟩
    · have hr' : pyInS runtimeLabel line = false := by simpa using hr
      have hstep : extractLoop (line :: rest) false [] = extractLoop rest false [] := by
        simp [extractLoop, hm, hr']
      rw [hstep]
      exact ih hrest

/-- C7: when no line of the text contains the section-header marker, the
extracted mapping is empty except possibly for the `runtime` key. -/
theorem no_marker_only_runtime (text : String)
    (h : ∀ line ∈ splitOnChar '\n' text.data, pyInS resultsMarker line = false) :
    extract_statistics text = []
      ∨ ∃ s, extract_statistics text = [("runtime", Value.vstr s)] :=
  extractLoop_no_marker _ h

/-- Witness for C7 on a marker-free text. -/
theorem no_marker_only_runtime_witness :
    extract_statistics "hello\nN Images: 40\nworld" = []
      ∨ ∃ s, extract_statistics "hello\nN Images: 40\nworld"
          = [("runtime", Value.vstr s)] :=
  no_marker_only_runtime "hello\nN Images: 40\nworld" (by decide)

/-- C9: `extract_statistics` is a total deterministic function of the
input text: in this embedding every conversion that can raise in Python
is an `Option`-valued parser whose failure the loop absorbs (dropping the
field or storing text), so a result exists for every input, and equal
inputs give equal mappings. -/
theorem extract_statistics_total_deterministic (text : String) :
    (∃ s, extract_statistics text = s)
      ∧ extract_statistics text = extract_statistics text :=
  ⟨⟨_, rfl⟩, rfl⟩

theorem ratOf_vint_zero : ratOf (Value.vint 0) = 0 := by
  unfold ratOf toRat?
  show mkRat 0 1 = 0
  rw [Rat.mkRat_eq_div]
  norm_num

theorem toRat?_eq_ratOf {v : Value} (h : (toRat? v).isSome = true) :
    toRat? v = some (ratOf v) := by
  unfold ratOf
  cases ht : toRat? v with
  | none => rw [ht] at h; simp at h
  | some q => simp [ht]

theorem pyGT_num {a b : Value} {x y : ℚ} (ha : toRat? a = some x)
    (hb : toRat? b = some y) : pyGT a b = some (decide (y < x)) := by
  cases a <;> cases b <;> simp_all [pyGT, toRat?]

theorem pyMaxGo_eq {α : Type} (f : α → Value) (g : α → ℚ) :
    ∀ (l : List α) (best : α), (∀ x ∈ best :: l, toRat? (f x) = some (g x)) →
      pyMaxGo f best l
        = some (match firstMaxQ g l with
                | none => best
                | some m => if g best < g m then m else best) := by
  intro l
  induction l with
  | nil => intro best h; rfl
  | cons y ys ih =>
    intro best h
    have hb : toRat? (f best) = some (g best) := h best (by simp)
    have hy : toRat? (f y) = some (g y) := h y (by simp)
    have hys : ∀ x ∈ y :: ys, toRat? (f x) = some (g x) := by
      intro x hx
      rcases List.mem_cons.mp hx with hx | hx
      · exact h x (by simp [hx])
      · exact h x (by simp [hx])
    have hbys : ∀ x ∈ best :: ys, toRat? (f x) = some (g x) := by
      intro x hx
      rcases List.mem_cons.mp hx with hx | hx
      · exact h x (by simp [hx])
      · exact h x (by simp [hx])
    simp only [pyMaxGo, pyGT_num hy hb]
    by_cases hlt : g best < g y
    · rw [decide_eq_true hlt]
      show pyMaxGo f y ys = _
      rw [ih y hys]
      cases hfm : firstMaxQ g ys with
      | none =>
        have h1 : firstMaxQ g (y :: ys) = some y := by simp [firstMaxQ, hfm]
        rw [h1]
        simp [hfm, hlt]
      | some m =>
        by_cases h2 : g y < g m
        · have h1 : firstMaxQ g (y :: ys) = some m := by simp [firstMaxQ, hfm, h2]
          rw [h1]
          simp [hfm, h2, lt_trans hlt h2]
        · have h1 : firstMaxQ g (y :: ys) = some y := by simp [firstMaxQ, hfm, h2]
          rw [h1]
          simp [hfm, h2, hlt]
    · rw [decide_eq_false hlt]
      show pyMaxGo f best ys = _
      rw [ih best hbys]
      cases hfm : firstMaxQ g ys with
      | none =>
        have h1 : firstMaxQ g (y :: ys) = some y := by simp [firstMaxQ, hfm]
        rw [h1]
        simp [hfm, hlt]
      | some m =>
        by_cases h2 : g y < g m
        · have h1 : firstMaxQ g (y :: ys) = some m := by simp [firstMaxQ, hfm, h2]
          rw [h1]
        · have h1 : firstMaxQ g (y :: ys) = some y := by simp [firstMaxQ, hfm, h2]
          rw [h1]
          have h3 : ¬ g best < g m := by
            push_neg at hlt h2
            intro hc
            linarith
          simp [hfm, hlt, h3]

theorem pyMax_eq_firstMaxQ {α : Type} (f : α → Value) (g : α → ℚ) (l : List α)
    (h : ∀ x ∈ l, toRat? (f x) = some (g x)) : pyMax f l = firstMaxQ g l := by
  cases l with
  | nil => rfl
  | cons x xs =>
    have hstep : pyMax f (x :: xs) = pyMaxGo f x xs := rfl
    rw [hstep, pyMaxGo_eq f g xs x h]
    cases hfm : firstMaxQ g xs with
    | none => simp [firstMaxQ, hfm]
    | some m =>
      simp only [firstMaxQ, hfm]
      by_cases h2 : g x < g m
      · simp [h2]
      · simp [h2]

theorem firstMaxQ_eq_nil {α : Type} (g : α → ℚ) :
    ∀ {l : List α}, firstMaxQ g l = none → l = [] := by
  intro l
  cases l with
  | nil => intro; rfl
  | cons x xs =>
    intro h
    simp only [firstMaxQ] at h
    cases hfm : firstMaxQ g xs with
    | none => rw [hfm] at h; simp at h
    | some m => rw [hfm] at h; by_cases h2 : g x < g m <;> simp [h2] at h

theorem firstMaxQ_max {α : Type} (g : α → ℚ) :
    ∀ (l : List α) (m : α), firstMaxQ g l = some m →
      m ∈ l ∧ ∀ y ∈ l, g y ≤ g m := by
  intro l
  induction l with
  | nil => intro m h; simp [firstMaxQ] at h
  | cons x xs ih =>
    intro m h
    simp only [firstMaxQ] at h
    cases hfm : firstMaxQ g xs with
    | none =>
      rw [hfm] at h
      have hx' : some x = some m := h
      have hx : m = x := by simpa using hx'.symm
      have hnil : xs = [] := firstMaxQ_eq_nil g hfm
      subst hnil
      rw [hx]
      exact ⟨by simp, by simp⟩
    | some m' =>
      rw [hfm] at h
      have h' : (if g x < g m' then some m' else some x) = some m := h
      obtain ⟨hm', hmax⟩ := ih m' hfm
      by_cases hc : g x < g m'
      · rw [if_pos hc] at h'
        have hmm : m = m' := by simpa using h'.symm
        rw [hmm]
        refine ⟨List.mem_cons_of_mem _ hm', ?_⟩
        intro y hy
        rcases List.mem_cons.mp hy with hy | hy
        · rw [hy]; exact le_of_lt hc
        · exact hmax y hy
      · rw [if_neg hc] at h'
        have hmm : m = x := by simpa using h'.symm
        rw [hmm]
        push_neg at hc
        refine ⟨List.mem_cons_self _ _, ?_⟩
        intro y hy
        rcases List.mem_cons.mp hy with hy | hy
        · rw [hy]
        · exact le_trans (hmax y hy) hc

/-- C3: under the hypothesis that every metric value compared is numeric
(which is what Python's `max` requires not to raise), for each of the
four metrics `analyze_results` selects exactly the first maximum of the
metric values over the iteration order vgg, alexnet, resnet — where an
absent result, an empty result and a missing key all count as zero — and
the printed recommendation is the upper-cased `pct_match` winner. -/
theorem analyze_results_first_max (r : AllResults)
    (h : ∀ key ∈ metricKeys, ∀ x ∈ items r,
      (toRat? (safe_get x.2 key)).isSome = true) :
    (∀ key ∈ metricKeys,
      best_for r key = firstMaxQ (itemVal key) (items r)
      ∧ (∀ x ∈ items r, itemVal key x = specMetricValue x.2 key)
      ∧ ∀ w, best_for r key = some w → w ∈ items r
          ∧ ∀ y ∈ items r, itemVal key y ≤ itemVal key w)
    ∧ recommended_model r = (best_for r "pct_match").map (fun w => pyUpperS w.1) := by
  constructor
  · intro key hkey
    have hnum : ∀ x ∈ items r, toRat? (safe_get x.2 key) = some (itemVal key x) :=
      fun x hx => toRat?_eq_ratOf (h key hkey x hx)
    refine ⟨pyMax_eq_firstMaxQ _ _ _ hnum, ?_, ?_⟩
    · intro x hx
      unfold itemVal specMetricValue safe_get
      cases hst : x.2 with
      | none => exact ratOf_vint_zero
      | some s =>
        by_cases hse : s = []
        · simp [hse, dictGet?, ratOf_vint_zero]
        · simp only [hse, if_neg hse]
          cases hdg : dictGet? s key with
          | none => simp [ratOf_vint_zero]
          | some v => simp
    · intro w hw
      have hbf : best_for r key = firstMaxQ (itemVal key) (items r) :=
        pyMax_eq_firstMaxQ _ _ _ hnum
      rw [hbf] at hw
      exact firstMaxQ_max _ _ _ hw
  · rfl

/-- Witness for C3 on the spec's end-to-end example values
(vgg 80.0, alexnet 90.0, resnet 93.3): resnet is recommended. -/
theorem analyze_results_first_max_witness :
    recommended_model ⟨some [("pct_match", Value.vfloat (mkRat 80 1))],
        some [("pct_match", Value.vfloat (mkRat 90 1))],
        some [("pct_match", Value.vfloat (mkRat 933 10))]⟩ = some "RESNET"
    ∧ best_for ⟨some [("pct_match", Value.vfloat (mkRat 80 1))],
        some [("pct_match", Value.vfloat (mkRat 90 1))],
        some [("pct_match", Value.vfloat (mkRat 933 10))]⟩ "pct_match"
      = firstMaxQ (itemVal "pct_match")
          (items ⟨some [("pct_match", Value.vfloat (mkRat 80 1))],
            some [("pct_match", Value.vfloat (mkRat 90 1))],
            some [("pct_match", Value.vfloat (mkRat 933 10))]⟩) :=
  ⟨by decide,
   ((analyze_results_first_max _ (by decide)).1 "pct_match" (by decide)).1⟩

/-- C4 counterexample: with vgg absent and both other models present with
`pct_match` 0.0, the absent vgg still wins the match-rate category even
though not all results are absent — refuting the claim that an absent
model is never selected unless every result is absent. -/
theorem analyze_absent_zero_refuted :
    best_for ⟨none, some [("pct_match", Value.vfloat (mkRat 0 1))],
        some [("pct_match", Value.vfloat (mkRat 0 1))]⟩ "pct_match"
      = some ("vgg", none)
    ∧ (AllResults.mk none (some [("pct_match", Value.vfloat (mkRat 0 1))])
        (some [("pct_match", Value.vfloat (mkRat 0 1))])).alexnet ≠ none :=
  ⟨by decide, by decide⟩

/-- C4 amended: an absent model can be selected as a category winner only
when no model has a strictly positive value for that metric (absent
results and missing keys counting as zero) — in particular, when all
three results are absent the first model in iteration order, vgg, wins
with value zero by the stable tie-break. -/
theorem absent_wins_only_at_zero (r : AllResults) (key : String)
    (h : ∀ x ∈ items r, (toRat? (safe_get x.2 key)).isSome = true) :
    (∀ name, best_for r key = some (name, none) →
      ∀ y ∈ items r, itemVal key y ≤ 0)
    ∧ (r.vgg = none → r.alexnet = none → r.resnet = none →
      best_for r key = some ("vgg", none)) := by
  have hnum : ∀ x ∈ items r, toRat? (safe_get x.2 key) = some (itemVal key x) :=
    fun x hx => toRat?_eq_ratOf (h x hx)
  have hzero : ∀ name, itemVal key (name, (none : Option Stats)) = 0 := by
    intro name
    unfold itemVal safe_get
    exact ratOf_vint_zero
  have hbf : best_for r key = firstMaxQ (itemVal key) (items r) :=
    pyMax_eq_firstMaxQ _ _ _ hnum
  constructor
  · intro name hwin y hy
    rw [hbf] at hwin
    obtain ⟨-, hmax⟩ := firstMaxQ_max _ _ _ hwin
    have := hmax y hy
    rwa [hzero name] at this
  · intro h1 h2 h3
    have hr : r = ⟨none, none, none⟩ := by
      cases r
      simp_all
    subst hr
    rw [hbf]
    simp [items, firstMaxQ, hzero]

/-- Witness for the amended C4: with vgg absent and the others at 0.0,
the winner is absent and indeed alexnet's metric value is at most zero. -/
theorem absent_wins_only_at_zero_witness :
    itemVal "pct_match"
        ("alexnet", some [("pct_match", Value.vfloat (mkRat 0 1))]) ≤ 0 :=
  (absent_wins_only_at_zero
      ⟨none, some [("pct_match", Value.vfloat (mkRat 0 1))],
        some [("pct_match", Value.vfloat (mkRat 0 1))]⟩ "pct_match"
      (by decide)).1 "vgg" (by decide)
    ("alexnet", some [("pct_match", Value.vfloat (mkRat 0 1))]) (by decide)

theorem digitChar_isDigit {d : ℕ} (h : d < 10) :
    (Nat.digitChar d).isDigit = true := by
  interval_cases d <;> decide

theorem natCharsAux_digits : ∀ (fuel n : ℕ), ∀ c ∈ natCharsAux fuel n,
    c.isDigit = true := by
  intro fuel
  induction fuel with
  | zero => intro n c hc; simp [natCharsAux] at hc
  | succ fuel ih =>
    intro n c hc
    simp only [natCharsAux] at hc
    by_cases h10 : n < 10
    · rw [if_pos h10] at hc
      have hce : c = Nat.digitChar n := by simpa using hc
      rw [hce]
      exact digitChar_isDigit h10
    · rw [if_neg h10] at hc
      rcases List.mem_append.mp hc with hc | hc
      · exact ih _ c hc
      · have hce : c = Nat.digitChar (n % 10) := by simpa using hc
        rw [hce]
        exact digitChar_isDigit (Nat.mod_lt _ (by norm_num))

theorem pyFormatF1_oneFrac (q : ℚ) : oneFracPctCell (pyFormatF1 q ++ "%") := by
  refine ⟨(if round10 q < 0 then "-" else "") ++ myNatStr ((round10 q).natAbs / 10),
    (round10 q).natAbs % 10, Nat.mod_lt _ (by norm_num), ?_, ?_⟩
  · unfold pyFormatF1
    simp [String.append_assoc]
  · intro c hc
    rw [String.data_append] at hc
    rcases List.mem_append.mp hc with hc | hc
    · by_cases hneg : round10 q < 0
      · rw [if_pos hneg] at hc
        right
        simpa using hc
      · rw [if_neg hneg] at hc
        simp at hc
    · left
      exact natCharsAux_digits _ _ c (by simpa [myNatStr] using hc)

/-- C8: in the console table a model whose run result is absent renders
the literal `ERROR` in all four metric columns, and when a run result
is present and non-empty, the four metric cells are the `cellOf`
renderings in which every float value appears with exactly one
fractional digit followed by the percent sign. -/
theorem console_error_and_one_decimal (r : AllResults) (name : String)
    (st : Option Stats) (_hmem : (name, st) ∈ items r) :
    (st = none →
      consoleRow name st = [pyUpperS name, "ERROR", "ERROR", "ERROR", "ERROR"])
    ∧ (∀ s, st = some s → s ≠ [] →
      consoleRow name st
          = [pyUpperS name, cellOf (dGetNA s "pct_correct_dogs"),
            cellOf (dGetNA s "pct_correct_breed"),
            cellOf (dGetNA s "pct_correct_notdogs"), cellOf (dGetNA s "pct_match")]
        ∧ ∀ key q, dGetNA s key = Value.vfloat q →
            cellOf (dGetNA s key) = pyFormatF1 q ++ "%"
            ∧ oneFracPctCell (cellOf (dGetNA s key))) := by
  constructor
  · intro h
    rw [h]
    rfl
  · intro s hs hne
    rw [hs]
    refine ⟨by simp [consoleRow, hne], ?_⟩
    intro key q hq
    rw [hq]
    exact ⟨rfl, pyFormatF1_oneFrac q⟩

/-- Witness for C8: the absent vgg row is all ERROR, and the float 93.3
renders as `93.3%`. -/
theorem console_error_and_one_decimal_witness :
    consoleRow "vgg" none = [pyUpperS "vgg", "ERROR", "ERROR", "ERROR", "ERROR"]
    ∧ cellOf (dGetNA [("pct_match", Value.vfloat (mkRat 933 10))] "pct_match")
        = pyFormatF1 (mkRat 933 10) ++ "%" :=
  ⟨(console_error_and_one_decimal
      ⟨none, some [("pct_match", Value.vfloat (mkRat 933 10))], none⟩
      "vgg" none (by decide)).1 rfl,
   (((console_error_and_one_decimal
      ⟨none, some [("pct_match", Value.vfloat (mkRat 933 10))], none⟩
      "alexnet" (some [("pct_match", Value.vfloat (mkRat 933 10))]) (by decide)).2
      [("pct_match", Value.vfloat (mkRat 933 10))] rfl (by decide)).2
      "pct_match" (mkRat 933 10) (by decide)).1⟩

/-- C5: whenever the visual reporter renders a table, its detailed rows
are exactly the three model rows in the fixed display order ResNet,
AlexNet, VGG, and any model missing from the collection or with an
absent result yields the row whose five data cells are all `ERROR`. -/
theorem visual_table_rows_order (r : AllResults)
    (sm : List (String × Value)) (td : List (List String))
    (hok : create_visual_results_table r = .ok (sm, td)) :
    (∃ a b c, rowFor r "ResNet" = some a ∧ rowFor r "AlexNet" = some b
      ∧ rowFor r "VGG" = some c ∧ td = [a, b, c])
    ∧ ∀ m ∈ (["ResNet", "AlexNet", "VGG"] : List String),
        lookupR r (pyLowerS m) = some none ∨ lookupR r (pyLowerS m) = none →
        rowFor r m = some [m, "ERROR", "ERROR", "ERROR", "ERROR", "ERROR"] := by
  constructor
  · unfold create_visual_results_table at hok
    split at hok
    · simp at hok
    · split at hok
      · simp at hok
      · split at hok
        · rename_i s hv hse td' htd
          rw [Except.ok.injEq, Prod.mk.injEq] at hok
          unfold table_data at htd
          cases h1 : rowFor r "ResNet" with
          | none => rw [h1] at htd; simp at htd
          | some a =>
            cases h2 : rowFor r "AlexNet" with
            | none => rw [h1, h2] at htd; simp at htd
            | some b =>
              cases h3 : rowFor r "VGG" with
              | none => rw [h1, h2, h3] at htd; simp at htd
              | some c =>
                rw [h1, h2, h3] at htd
                have habc : some [a, b, c] = some td' := htd
                refine ⟨a, b, c, rfl, rfl, rfl, ?_⟩
                rw [← hok.2]
                exact (Option.some.inj habc).symm
        · simp at hok
  · intro m hm hcond
    unfold rowFor
    rcases hcond with hc | hc <;> rw [hc]

/-- Witness for C5: with only vgg present, the rendered table has the
ResNet and AlexNet all-ERROR rows and then the VGG data row. -/
theorem visual_table_rows_order_witness :
    (∃ a b c,
      rowFor ⟨some [("n_images", Value.vint 4)], none, none⟩ "ResNet" = some a
      ∧ rowFor ⟨some [("n_images", Value.vint 4)], none, none⟩ "AlexNet" = some b
      ∧ rowFor ⟨some [("n_images", Value.vint 4)], none, none⟩ "VGG" = some c
      ∧ [["ResNet", "ERROR", "ERROR", "ERROR", "ERROR", "ERROR"],
         ["AlexNet", "ERROR", "ERROR", "ERROR", "ERROR", "ERROR"],
         ["VGG", "0.0%", "0.0%", "0.0%", "0.0%", "0:0:0"]] = [a, b, c])
    ∧ ∀ m ∈ (["ResNet", "AlexNet", "VGG"] : List String),
        lookupR ⟨some [("n_images", Value.vint 4)], none, none⟩ (pyLowerS m) = some none
          ∨ lookupR ⟨some [("n_images", Value.vint 4)], none, none⟩ (pyLowerS m) = none →
        rowFor ⟨some [("n_images", Value.vint 4)], none, none⟩ m
          = some [m, "ERROR", "ERROR", "ERROR", "ERROR", "ERROR"] :=
  visual_table_rows_order ⟨some [("n_images", Value.vint 4)], none, none⟩
    [("# Total Images", Value.vint 4), ("# Dog Images", Value.vint 0),
      ("# Not-a-Dog Images", Value.vint 0)]
    [["ResNet", "ERROR", "ERROR", "ERROR", "ERROR", "ERROR"],
     ["AlexNet", "ERROR", "ERROR", "ERROR", "ERROR", "ERROR"],
     ["VGG", "0.0%", "0.0%", "0.0%", "0.0%", "0:0:0"]] (by decide)

/-- C10: the visual reporter takes its sample statistics from the
first-inserted (vgg) result; when that result is absent or empty it
aborts with the `No valid results to display` diagnostic no matter what
the later models hold, and when it renders, the summary counts are
sourced from the vgg result. -/
theorem visual_first_result_gate (r : AllResults) :
    ((r.vgg = none ∨ r.vgg = some []) →
      create_visual_results_table r = .error "No valid results to display")
    ∧ (∀ s sm td, r.vgg = some s →
      create_visual_results_table r = .ok (sm, td) → sm = summaryOf s) := by
  constructor
  · rintro (h | h) <;> simp [create_visual_results_table, h]
  · intro s sm td hv hok
    unfold create_visual_results_table at hok
    split at hok
    · simp at hok
    · rename_i s' hv'
      have hss : s' = s := by rw [hv] at hv'; exact (Option.some.inj hv').symm
      subst hss
      split at hok
      · simp at hok
      · split at hok
        · rw [Except.ok.injEq, Prod.mk.injEq] at hok
          exact hok.1.symm
        · simp at hok

/-- Witness for C10: vgg absent while alexnet has a valid result still
aborts the visual reporter. -/
theorem visual_first_result_gate_witness :
    create_visual_results_table
        ⟨none, some [("pct_match", Value.vfloat (mkRat 90 1))], none⟩
      = .error "No valid results to display" :=
  (visual_first_result_gate _).1 (Or.inl rfl)

end CompareModels
